import Mathlib

/-!
Verification development for the Statement2Budget pipeline (src/main.py).

The Python source is shallowly embedded below: pandas/CSV reading is modelled
at the level of lines and `;`/`,`-separated fields, Python floats are modelled
as exact rationals parsed from decimal literals, and the stateful line scanner
of `parse_llm_output` is modelled as a fold over lines with an explicit state.
-/

namespace S2B

/-! ## Python string primitives (the subset this program uses) -/

/-- Whitespace characters recognised by Python `str.strip` / `float` (ASCII part). -/
def wsChar (c : Char) : Bool :=
  c = ' ' || c = '\t' || c = '\n' || c = '\r' || c = '\x0b' || c = '\x0c'

/-- Model of Python `str.strip()` (no arguments): drop whitespace on both ends. -/
def pyStrip (s : String) : String :=
  String.mk (((s.data.dropWhile wsChar).reverse.dropWhile wsChar).reverse)

/-- Uppercasing of a single character as Python `str.upper` does it, on the
alphabet this program's data uses (ASCII plus the French accented letters). -/
def charUp (c : Char) : Char :=
  if c = 'é' then 'É' else if c = 'è' then 'È' else if c = 'ê' then 'Ê'
  else if c = 'ë' then 'Ë' else if c = 'à' then 'À' else if c = 'â' then 'Â'
  else if c = 'ä' then 'Ä' else if c = 'ç' then 'Ç' else if c = 'î' then 'Î'
  else if c = 'ï' then 'Ï' else if c = 'ô' then 'Ô' else if c = 'ö' then 'Ö'
  else if c = 'ù' then 'Ù' else if c = 'û' then 'Û' else if c = 'ü' then 'Ü'
  else c.toUpper

/-- Lowercasing of a single character as Python `str.lower` does it, on the
same alphabet as `charUp`. -/
def charLow (c : Char) : Char :=
  if c = 'É' then 'é' else if c = 'È' then 'è' else if c = 'Ê' then 'ê'
  else if c = 'Ë' then 'ë' else if c = 'À' then 'à' else if c = 'Â' then 'â'
  else if c = 'Ä' then 'ä' else if c = 'Ç' then 'ç' else if c = 'Î' then 'î'
  else if c = 'Ï' then 'ï' else if c = 'Ô' then 'ô' else if c = 'Ö' then 'ö'
  else if c = 'Ù' then 'ù' else if c = 'Û' then 'û' else if c = 'Ü' then 'ü'
  else c.toLower

/-- Model of Python `str.upper()`. -/
def pyUpper (s : String) : String := String.mk (s.data.map charUp)

/-- Model of Python `str.lower()`. -/
def pyLower (s : String) : String := String.mk (s.data.map charLow)

/-- Contiguous-sublist test on character lists (`pat` occurs inside `hay`). -/
def infixOf (pat : List Char) : List Char → Bool
  | [] => pat.isEmpty
  | c :: t => if pat.isPrefixOf (c :: t) then true else infixOf pat t

/-- Model of Python's substring test `pat in hay`. -/
def containsSub (hay pat : String) : Bool := infixOf pat.data hay.data

/-- Model of Python `s.split(sep)` for a single-character separator, on
character lists. `"".split(sep)` is `[""]`, matching Python. -/
def splitCh (sep : Char) : List Char → List (List Char)
  | [] => [[]]
  | c :: rest =>
    let r := splitCh sep rest
    if c = sep then [] :: r
    else
      match r with
      | [] => [[c]]
      | h :: t => (c :: h) :: t

/-- `splitCh` lifted to `String`. -/
def splitS (sep : Char) (s : String) : List String :=
  (splitCh sep s.data).map String.mk

/-- Model of `str(val).replace(',', '.')` as used on amounts (the pattern is a
single character, so a character-wise map is faithful). -/
def replaceCommaDot (s : String) : String :=
  String.mk (s.data.map (fun c => if c = ',' then '.' else c))

/-! ## Decimal numbers: Python `float(...)` and `f-string` formatting

A Python float is modelled as the exact value of its decimal literal, kept as
a scaled integer `num * 10 ^ exp` (rationals do not reduce in the kernel, so
witnesses could not be checked with `decide` over `ℚ`). This is exact for
every amount with at most two decimal places, which is the range the program's
bank data and its own output format use; binary-float representation error on
longer literals is not modelled. The special spellings `inf`, `nan` and
underscore separators accepted by CPython are not modelled either — no claim
exercises them. -/

/-- Exact decimal value `num * 10 ^ exp`, the model of a parsed Python float. -/
structure Dec where
  num : ℤ
  exp : ℤ
  deriving DecidableEq, Repr

/-- Rational value of a `Dec` (used only in statements, never evaluated). -/
def Dec.toRat (d : Dec) : ℚ := (d.num : ℚ) * (10 : ℚ) ^ d.exp

/-- Numeric value of a list of decimal digit characters (most significant first). -/
def digitsVal (cs : List Char) : Nat := cs.foldl (fun a c => a * 10 + (c.toNat - 48)) 0

/-- Split a character list at the first character satisfying `p`; the second
component is `none` when no such character occurs. -/
def breakOn (p : Char → Bool) : List Char → List Char × Option (List Char)
  | [] => ([], none)
  | c :: cs =>
    if p c then ([], some cs)
    else
      let r := breakOn p cs
      (c :: r.1, r.2)

/-- Optional leading sign of a numeric literal, as an integer factor. -/
def parseSignZ : List Char → ℤ × List Char
  | '-' :: cs => (-1, cs)
  | '+' :: cs => (1, cs)
  | cs => (1, cs)

/-- Model of Python `float(s)`: strip whitespace, optional sign, decimal
mantissa with optional fraction, optional decimal exponent. Returns `none`
exactly when CPython would raise `ValueError` (on the modelled grammar). -/
def pyFloat? (s : String) : Option Dec :=
  let t := ((s.data.dropWhile wsChar).reverse.dropWhile wsChar).reverse
  let sg := parseSignZ t
  let me := breakOn (fun c => c = 'e' || c = 'E') sg.2
  let ifr := breakOn (fun c => c = '.') me.1
  let ip := ifr.1
  let fp := (ifr.2).getD []
  if ip.all Char.isDigit && fp.all Char.isDigit && !(ip.isEmpty && fp.isEmpty) then
    let mant : ℤ := sg.1 * (digitsVal ip * 10 ^ fp.length + digitsVal fp)
    match me.2 with
    | none => some ⟨mant, -(fp.length : ℤ)⟩
    | some ex =>
      let se := parseSignZ ex
      if !se.2.isEmpty && se.2.all Char.isDigit then
        some ⟨mant, se.1 * (digitsVal se.2 : ℤ) - (fp.length : ℤ)⟩
      else none
  else none

/-- Decimal digit characters of `n`, most significant first, with structural
fuel so that the kernel can evaluate it (`fuel ≥ 1` always suffices after the
first step because `n / 10 < n` for `n ≥ 10`). -/
def natDigitsAux : Nat → Nat → List Char
  | 0, _ => []
  | fuel + 1, n =>
    if n < 10 then [Char.ofNat (48 + n)]
    else natDigitsAux fuel (n / 10) ++ [Char.ofNat (48 + n % 10)]

/-- Decimal digit characters of `n`, most significant first. -/
def natDigits (n : Nat) : List Char := natDigitsAux (n + 1) n

/-- Two-digit zero-padded rendering of `n < 100`. -/
def pad2 (n : Nat) : String :=
  if n < 10 then "0" ++ String.mk (natDigits n) else String.mk (natDigits n)

/-- Round-half-to-even of `n / d` on naturals (`d > 0`), the rounding CPython's
`.2f` formatting performs (on the exact decimal value; see the module note on
binary floats). -/
def rheDivNat (n d : Nat) : Nat :=
  let q := n / d
  let r := n % d
  if 2 * r < d then q
  else if d < 2 * r then q + 1
  else if q % 2 = 0 then q else q + 1

/-- Hundredths of the absolute value of a `Dec`, rounded half to even: the
integer CPython's `abs` + `.2f` formatting renders. -/
def decCents (d : Dec) : Nat :=
  if 0 ≤ d.exp + 2 then d.num.natAbs * 10 ^ (d.exp + 2).toNat
  else rheDivNat d.num.natAbs (10 ^ (-(d.exp + 2)).toNat)

/-- Model of the Python f-string `f"\x7bn:.2f\x7d".replace('.', ',')` applied to
the absolute value of a parsed float: two decimal places, comma separator. -/
def decFmt2 (d : Dec) : String :=
  let c := decCents d
  String.mk (natDigits (c / 100)) ++ "," ++ pad2 (c % 100)

/-- Embedding of `format_montant` (src/main.py:157-165): absolute value, two
decimals, comma separator, trailing euro sign; non-numeric input is returned
unchanged. -/
def format_montant (val : String) : String :=
  match pyFloat? (replaceCommaDot val) with
  | none => val
  | some d => decFmt2 d ++ " €"

/-! ## Statement Loader: `load_releve` (src/main.py:22-40)

`pd.read_csv(sep=';', skiprows=2)` is modelled on the file's lines: two lines
are skipped, the next line is the header whose field count fixes the column
count, and the remaining lines are `;`-split data rows. A data row with more
fields than the header makes pandas raise (`ParserError`); shorter rows are
padded (pandas pads with NaN, modelled as the empty string). `decimal=','`
only affects the dtype of `Montant`; cells are kept as raw text here since no
claim depends on the numeric dtype, and the exclusion filter then drops every
row whose uppercased `Detail` contains one of the configured patterns. The
`df.columns = [...]` assignment raises a pandas `ValueError` when the column
count is not 5; errors are modelled as `Except.error` with the Python
exception name. -/

/-- One parsed statement row (the five fixed columns). -/
structure StatementRow where
  date : String
  libelle : String
  detail : String
  montant : String
  devise : String
  deriving DecidableEq, Repr

/-- Reading phase of `load_releve`: skip two lines, header fixes the column
count, rename to the five fixed names (pandas `ValueError` unless exactly 5
columns), data rows `;`-split. -/
def readRows (fileLines : List String) : Except String (List StatementRow) :=
  match fileLines.drop 2 with
  | [] => .error "EmptyDataError"
  | hdr :: dataLines =>
    let ncols := (splitS ';' hdr).length
    if dataLines.any (fun l => ncols < (splitS ';' l).length) then .error "ParserError"
    else if ncols ≠ 5 then .error "ValueError"
    else .ok (dataLines.map (fun l =>
      let fs := splitS ';' l
      ⟨fs.getD 0 "", fs.getD 1 "", fs.getD 2 "", fs.getD 3 "", fs.getD 4 ""⟩))

/-- The exclusion mask of `load_releve`: keep a row unless its uppercased
`Detail` contains some configured pattern (the pattern itself is used verbatim,
it is not uppercased by the code). -/
def excludeFilter (pats : List String) (rows : List StatementRow) : List StatementRow :=
  rows.filter (fun r => ! pats.any (fun p => containsSub (pyUpper r.detail) p))

/-- Embedding of `load_releve`: read, rename columns, filter exclusions. -/
def load_releve (pats : List String) (fileLines : List String) :
    Except String (List StatementRow) :=
  (readRows fileLines).map (excludeFilter pats)

/-- Case-insensitive substring test, the matching the spec ascribes to the
exclusion filter (both sides uppercased). -/
def ciContains (d p : String) : Bool := containsSub (pyUpper d) (pyUpper p)

/-! ## Response Parser: `parse_llm_output` (src/main.py:168-205) -/

/-- Which section of the response is currently active. -/
inductive Side where
  | dep
  | rev
  deriving DecidableEq, Repr

/-- Scanner state: active section and the rows collected so far. -/
structure PSt where
  sec : Option Side
  deps : List (List String)
  revs : List (List String)
  deriving DecidableEq, Repr

/-- Expense-section marker test: the stripped line, uppercased, contains
`DÉPENSES` or `DEPENSES`. -/
def depMark (line : String) : Bool :=
  containsSub (pyUpper (pyStrip line)) "DÉPENSES" ||
    containsSub (pyUpper (pyStrip line)) "DEPENSES"

/-- Income-section marker test: the stripped line, uppercased, contains
`REVENUS`. -/
def revMark (line : String) : Bool :=
  containsSub (pyUpper (pyStrip line)) "REVENUS"

/-- CSV-header test: the stripped line, lowercased, starts with `date`. -/
def isHeaderL (line : String) : Bool :=
  "date".data.isPrefixOf (pyLower (pyStrip line)).data

/-- Data-line parse: split the stripped line on `;` when one occurs, else on
`,`; succeed when at least four fields result, keeping the first four, each
stripped. -/
def parseRow? (line : String) : Option (List String) :=
  let s := pyStrip line
  let parts := (if containsSub s ";" then splitCh ';' s.data else splitCh ',' s.data).map String.mk
  if 4 ≤ parts.length then some ((parts.take 4).map pyStrip) else none

/-- One iteration of the scanner loop of `parse_llm_output`. -/
def stepLine (st : PSt) (line : String) : PSt :=
  if pyStrip line = "" then st
  else if depMark line then { st with sec := some Side.dep }
  else if revMark line then { st with sec := some Side.rev }
  else if isHeaderL line then st
  else
    match parseRow? line with
    | some row =>
      match st.sec with
      | some Side.dep => { st with deps := st.deps ++ [row] }
      | some Side.rev => { st with revs := st.revs ++ [row] }
      | none => st
    | none => st

/-- The scanner over a list of lines, from the initial state. -/
def parseLines (ls : List String) : List (List String) × List (List String) :=
  let f := ls.foldl stepLine ⟨none, [], []⟩
  (f.deps, f.revs)

/-- Embedding of `parse_llm_output`: strip the whole text, split into lines,
scan. (Python `splitlines` is modelled as splitting on newline; after the
outer strip the two agree on the `\n`-separated texts this program handles.) -/
def parse_llm_output (result : String) : List (List String) × List (List String) :=
  parseLines ((splitCh '\n' (pyStrip result).data).map String.mk)

/-! ## Ledger Writer, flat CSV: `save_result` (src/main.py:208-257) -/

/-- The four fixed header/label lines `save_result` writes first. -/
def headerLines : List String :=
  [",\"Pour modifier ou ajouter des catégories, modifiez les tableaux \"\"Dépenses\"\" et \"\"Revenus\"\" de la feuille \"\"Récapitulatif\"\".\",,,,,,,,",
    ",Dépenses,,,,,Revenus,,,",
    ",,,,,,,,,",
    ",Date,Montant,Description,Catégorie,,Date,Montant,Description,Catégorie"]

/-- The four comma-separated fields one side (expenses or income) contributes
to data line `i`: the row's fields with the amount formatted and, when
non-empty, wrapped in double quotes; all empty past the end of the list. -/
def sideTokens (rows : List (List String)) (i : Nat) : List String :=
  match rows.get? i with
  | some r =>
    let m := format_montant (r.getD 1 "")
    [r.getD 0 "", if m = "" then m else "\"" ++ m ++ "\"", r.getD 2 "", r.getD 3 ""]
  | none => ["", "", "", ""]

/-- Join fields with commas (the f-string `',\x7ba\x7d,\x7bb\x7d,...'` of the
source is exactly this with a leading empty field). -/
def joinC : List String → String
  | [] => ""
  | [t] => t
  | t :: r :: rest => t ++ "," ++ joinC (r :: rest)

/-- The ten comma-separated fields of data line `i`. -/
def lineTokens (deps revs : List (List String)) (i : Nat) : List String :=
  [""] ++ sideTokens deps i ++ [""] ++ sideTokens revs i

/-- Data line `i` of the flat CSV. -/
def dataLine (deps revs : List (List String)) (i : Nat) : String :=
  joinC (lineTokens deps revs i)

/-- The lines `save_result` writes: four fixed lines, then one data line per
index below `max(len(depenses), len(revenus))`. -/
def save_result_lines (deps revs : List (List String)) : List String :=
  headerLines ++ (List.range (max deps.length revs.length)).map (dataLine deps revs)

/-- The flat-CSV text `save_result` writes (`'\n'.join(lines) + '\n'`). -/
def save_result_text (deps revs : List (List String)) : String :=
  joinNl (save_result_lines deps revs) ++ "\n"
where
  joinNl : List String → String
    | [] => ""
    | [t] => t
    | t :: r :: rest => t ++ "\n" ++ joinNl (r :: rest)

/-- Embedding of `save_result` on the raw response text: parse, then render. -/
def save_result (result : String) : List String :=
  save_result_lines (parse_llm_output result).1 (parse_llm_output result).2

/-! ## Ledger Loader: `load_template` (src/main.py:43-59)

`pd.read_csv(header=None, skiprows=3)` tokenizes comma-separated lines with
double-quote quoting (a quoted field may contain commas; a doubled quote
inside a quoted field is an escaped quote). `df.iloc[1:, 1:5]` /
`df.iloc[1:, 6:10]` then drop the first remaining line and select the two
column groups, and `dropna(how='all')` drops rows whose four cells are all
empty (pandas reads an empty cell as NaN). -/

/-- Tokenizer mode: outside quotes, inside quotes, or just after a closing
quote (where a second quote is an escaped quote). -/
inductive CsvMode where
  | norm
  | quot
  | closed
  deriving DecidableEq, Repr

/-- CSV field tokenizer (current field carried reversed). -/
def csvAux : List Char → CsvMode → List Char → List String
  | [], _, acc => [String.mk acc.reverse]
  | c :: cs, CsvMode.norm, acc =>
    if c = ',' then String.mk acc.reverse :: csvAux cs CsvMode.norm []
    else if c = '"' then csvAux cs CsvMode.quot acc
    else csvAux cs CsvMode.norm (c :: acc)
  | c :: cs, CsvMode.quot, acc =>
    if c = '"' then csvAux cs CsvMode.closed acc
    else csvAux cs CsvMode.quot (c :: acc)
  | c :: cs, CsvMode.closed, acc =>
    if c = '"' then csvAux cs CsvMode.quot ('"' :: acc)
    else if c = ',' then String.mk acc.reverse :: csvAux cs CsvMode.norm []
    else csvAux cs CsvMode.norm (c :: acc)

/-- Split one CSV line into its fields. -/
def csvSplit (s : String) : List String := csvAux s.data CsvMode.norm []

/-- Four consecutive cells of a tokenized row starting at column `o`
(missing cells read as empty, i.e. NaN). -/
def row4 (r : List String) (o : Nat) : List String :=
  [r.getD o "", r.getD (o + 1) "", r.getD (o + 2) "", r.getD (o + 3) ""]

/-- `dropna(how='all')` survivor test: some cell is non-empty. -/
def nonEmptyRow (r : List String) : Bool := r.any (fun s => !(s == ""))

/-- The default NA sentinels of `pd.read_csv`: a cell equal to one of these is
read as NaN (NaN is represented by the empty string in this embedding, as in
`row4`'s default for missing cells). -/
def naList : List String :=
  ["", "#N/A", "#N/A N/A", "#NA", "-1.#IND", "-1.#QNAN", "-NaN", "-nan",
    "1.#IND", "1.#QNAN", "<NA>", "N/A", "NA", "NULL", "NaN", "None",
    "n/a", "nan", "null"]

/-- Pandas NA-sentinel conversion of one cell. -/
def naCell (s : String) : String := if naList.contains s = true then "" else s

/-- Embedding of `load_template` on the file's lines: skip three lines, skip
the column-header line, tokenize, convert NA sentinels to NaN, select columns
1-4 (expenses) and 6-9 (income), drop all-empty rows. -/
def load_template (ls : List String) : List (List String) × List (List String) :=
  match ls.drop 3 with
  | [] => ([], [])
  | _ :: dataLines =>
    let rows := dataLines.map (fun l => (csvSplit l).map naCell)
    ((rows.map (fun r => row4 r 1)).filter nonEmptyRow,
      (rows.map (fun r => row4 r 6)).filter nonEmptyRow)

/-- The transform `save_result` applies to a row as read back by
`load_template`: date, description and category unchanged, amount formatted. -/
def outRow (r : List String) : List String :=
  [r.getD 0 "", format_montant (r.getD 1 ""), r.getD 2 "", r.getD 3 ""]

/-- CSV-safe field: contains no comma, double quote, or newline (such a field
survives the unescaped flat-CSV rendering of `save_result` verbatim). -/
def safeF (s : String) : Bool :=
  !s.data.any (fun c => c = ',' || c = '"' || c = '\n')

/-- Not a pandas NA sentinel (such a cell reads back as its own text). -/
def notNA (s : String) : Bool := !naList.contains s

/-- Round-trip hypothesis on one categorized row: date, description and
category CSV-safe and not NA sentinels, amount parsable as a number. -/
def goodRow (r : List String) : Prop :=
  (safeF (r.getD 0 "") = true ∧ notNA (r.getD 0 "") = true) ∧
    (safeF (r.getD 2 "") = true ∧ notNA (r.getD 2 "") = true) ∧
    (safeF (r.getD 3 "") = true ∧ notNA (r.getD 3 "") = true) ∧
    (pyFloat? (replaceCommaDot (r.getD 1 ""))).isSome = true

instance (r : List String) : Decidable (goodRow r) := by
  unfold goodRow
  infer_instance

/-- A written token `tok` renders the logical field `field`: either verbatim
(no comma or quote in the field) or fully quoted with a quote-free inside. -/
def Renders (field tok : String) : Prop :=
  (tok = field ∧ ∀ c ∈ field.data, ¬(c = ',' ∨ c = '"')) ∨
    (tok.data = '"' :: field.data ++ ['"'] ∧ ∀ c ∈ field.data, c ≠ '"')

/-- The logical (unquoted) four fields one side contributes to data line `i`:
the row transformed by `outRow`, or four empty cells past the end. -/
def sideFields (rows : List (List String)) (i : Nat) : List String :=
  match rows.get? i with
  | some r => outRow r
  | none => ["", "", "", ""]

/-- The ten logical fields of data line `i`. -/
def lineFields (deps revs : List (List String)) (i : Nat) : List String :=
  [""] ++ sideFields deps i ++ [""] ++ sideFields revs i

/-! ## Ledger Writer, spreadsheet: `save_to_xlsx` (src/main.py:260-330)

Only the value coercion and row placement are modelled: styles and the
clearing of the template region carry no claim content. A written cell holds a
date value, raw text, or a number. -/

/-- Result of `parse_date`: a proper date value or the raw text. -/
inductive DateOrText where
  | date (y m d : Nat)
  | raw (s : String)
  deriving DecidableEq, Repr

/-- Gregorian leap-year rule (what `datetime` validates against). -/
def leapYear (y : Nat) : Bool := y % 4 = 0 && (y % 100 ≠ 0 || y % 400 = 0)

/-- Days in a month (`datetime` day-of-month validation). -/
def daysInMonth (y m : Nat) : Nat :=
  if m = 2 then (if leapYear y then 29 else 28)
  else if m = 4 || m = 6 || m = 9 || m = 11 then 30
  else 31

/-- Day component accepted by `strptime`'s `%d`: one or two digits, 1-31. -/
def okDay (cs : List Char) : Bool :=
  cs.all Char.isDigit && (cs.length = 1 || cs.length = 2) &&
    1 ≤ digitsVal cs && digitsVal cs ≤ 31

/-- Month component accepted by `strptime`'s `%m`: one or two digits, 1-12. -/
def okMonth (cs : List Char) : Bool :=
  cs.all Char.isDigit && (cs.length = 1 || cs.length = 2) &&
    1 ≤ digitsVal cs && digitsVal cs ≤ 12

/-- Embedding of the inner `parse_date` of `save_to_xlsx`: strip, then
`strptime('%d/%m/%Y')` — day/month/4-digit-year split on `/`, validated
against the calendar; any failure returns the original string. -/
def parse_date (s : String) : DateOrText :=
  match splitCh '/' (pyStrip s).data with
  | [ds, ms, ys] =>
    if okDay ds && okMonth ms && ys.length = 4 && ys.all Char.isDigit &&
        1 ≤ digitsVal ys && digitsVal ds ≤ daysInMonth (digitsVal ys) (digitsVal ms) then
      DateOrText.date (digitsVal ys) (digitsVal ms) (digitsVal ds)
    else DateOrText.raw s
  | _ => DateOrText.raw s

/-- Embedding of the inner `parse_montant` of `save_to_xlsx`: absolute value
of the parsed float, zero when unparsable. -/
def parse_montant (s : String) : ℚ :=
  match pyFloat? (replaceCommaDot s) with
  | some d => |d.toRat|
  | none => 0

/-- A cell value written to the spreadsheet. -/
inductive CellV where
  | dateV (y m d : Nat)
  | textV (s : String)
  | numV (q : ℚ)

/-- The date cell written for a row: parsed date, or the raw text. -/
def dateCell (s : String) : CellV :=
  match parse_date s with
  | .date y m d => .dateV y m d
  | .raw t => .textV t

/-- The cells `save_to_xlsx` writes for one section, starting at sheet row
`rowIdx` (`for i, row in enumerate(...): r = 5 + i`). -/
def writeRowsFrom (rowIdx : Nat) : List (List String) → List (Nat × CellV × CellV × CellV × CellV)
  | [] => []
  | r :: rest =>
    (rowIdx, dateCell (r.getD 0 ""), CellV.numV (parse_montant (r.getD 1 "")),
        CellV.textV (r.getD 2 ""), CellV.textV (r.getD 3 "")) ::
      writeRowsFrom (rowIdx + 1) rest

/-- One section's writes, starting at sheet row 5. -/
def writeSection (rows : List (List String)) : List (Nat × CellV × CellV × CellV × CellV) :=
  writeRowsFrom 5 rows

/-! ## CLI driver: `main` (src/main.py:333-399)

Only the statement-selection branch and the absence of any exception handler
are modelled: `main` either returns early (after printing a diagnostic) when
no statement file can be found, or runs the pipeline, whose failure
propagates unhandled. -/

/-- Python `f.endswith('.csv')`. -/
def endsCsv (f : String) : Bool := ".csv".data.isSuffixOf f.data

/-- Insertion into a sorted list (stable, ascending), for Python `sorted`. -/
def insertSorted (x : String) : List String → List String
  | [] => [x]
  | y :: t => if x ≤ y ∧ ¬ y ≤ x then x :: y :: t else y :: insertSorted x t

/-- Python `sorted` on strings (insertion sort, lexicographic). -/
def sortedStr : List String → List String
  | [] => []
  | x :: t => insertSorted x (sortedStr t)

/-- Statement selection of `main`: the explicit argument when given, else the
last of the sorted `.csv` entries of the input directory, `none` when there is
no such entry. -/
def selectReleve (arg : Option String) (listing : List String) : Option String :=
  match arg with
  | some p => some p
  | none => (sortedStr (listing.filter endsCsv)).getLast?

/-- The run skeleton of `main`: early `return` (after a printed diagnostic,
no exception) when no statement is found; otherwise the pipeline runs with no
surrounding handler, so its failure propagates. Returns whether the pipeline
ran. -/
def mainRun {ε : Type} (arg : Option String) (listing : List String)
    (pipeline : String → Except ε Unit) : Except ε Bool :=
  match selectReleve arg listing with
  | none => .ok false
  | some p => (pipeline p).map (fun _ => true)

/-! ## Helper lemmas -/

lemma blank_not_marker (l : String) (h : pyStrip l = "") :
    depMark l = false ∧ revMark l = false ∧ isHeaderL l = false := by
  refine ⟨?_, ?_, ?_⟩ <;> simp only [depMark, revMark, isHeaderL, h] <;> decide

lemma parseRow?_blank (l : String) (h : pyStrip l = "") : parseRow? l = none := by
  simp only [parseRow?, h]
  decide

lemma stepLine_dep (st : PSt) (l : String) (h : depMark l = true) :
    stepLine st l = { st with sec := some Side.dep } := by
  have hb : pyStrip l ≠ "" := fun hc => by simpa [h] using (blank_not_marker l hc).1
  simp [stepLine, hb, h]

lemma stepLine_rev (st : PSt) (l : String) (hd : depMark l = false) (h : revMark l = true) :
    stepLine st l = { st with sec := some Side.rev } := by
  have hb : pyStrip l ≠ "" := fun hc => by simpa [h] using (blank_not_marker l hc).2.1
  simp [stepLine, hb, hd, h]

lemma stepLine_hdr (st : PSt) (l : String) (hd : depMark l = false) (hr : revMark l = false)
    (hh : isHeaderL l = true) : stepLine st l = st := by
  have hb : pyStrip l ≠ "" := fun hc => by simpa [hh] using (blank_not_marker l hc).2.2
  simp [stepLine, hb, hd, hr, hh]

lemma stepLine_none (A B : List (List String)) (l : String)
    (hd : depMark l = false) (hr : revMark l = false) :
    stepLine ⟨none, A, B⟩ l = ⟨none, A, B⟩ := by
  by_cases hb : pyStrip l = ""
  · simp [stepLine, hb]
  · by_cases hh : isHeaderL l
    · exact stepLine_hdr _ _ hd hr hh
    · simp only [stepLine, hb, hd, hr, hh, if_false, Bool.false_eq_true, if_neg]
      cases parseRow? l <;> simp

lemma stepLine_data_dep (A B : List (List String)) (l : String)
    (hd : depMark l = false) (hr : revMark l = false) (hh : isHeaderL l = false) :
    stepLine ⟨some Side.dep, A, B⟩ l = ⟨some Side.dep, A ++ (parseRow? l).toList, B⟩ := by
  by_cases hb : pyStrip l = ""
  · simp [stepLine, hb, parseRow?_blank l hb]
  · simp only [stepLine, hb, hd, hr, hh, if_false, Bool.false_eq_true, if_neg]
    cases parseRow? l <;> simp

lemma stepLine_data_rev (A B : List (List String)) (l : String)
    (hd : depMark l = false) (hr : revMark l = false) (hh : isHeaderL l = false) :
    stepLine ⟨some Side.rev, A, B⟩ l = ⟨some Side.rev, A, B ++ (parseRow? l).toList⟩ := by
  by_cases hb : pyStrip l = ""
  · simp [stepLine, hb, parseRow?_blank l hb]
  · simp only [stepLine, hb, hd, hr, hh, if_false, Bool.false_eq_true, if_neg]
    cases parseRow? l <;> simp

lemma foldl_no_marker (pre : List String) (A B : List (List String))
    (h : ∀ l ∈ pre, depMark l = false ∧ revMark l = false) :
    pre.foldl stepLine ⟨none, A, B⟩ = ⟨none, A, B⟩ := by
  induction pre with
  | nil => rfl
  | cons l t ih =>
    have hl := h l (List.mem_cons_self l t)
    rw [List.foldl_cons, stepLine_none A B l hl.1 hl.2,
      ih (fun x hx => h x (List.mem_cons_of_mem l hx))]

lemma foldl_dep_data (ds : List String) (A B : List (List String))
    (h : ∀ l ∈ ds, depMark l = false ∧ revMark l = false ∧ isHeaderL l = false) :
    ds.foldl stepLine ⟨some Side.dep, A, B⟩ = ⟨some Side.dep, A ++ ds.filterMap parseRow?, B⟩ := by
  induction ds generalizing A with
  | nil => simp
  | cons l t ih =>
    have hl := h l (List.mem_cons_self l t)
    rw [List.foldl_cons, stepLine_data_dep A B l hl.1 hl.2.1 hl.2.2,
      ih _ (fun x hx => h x (List.mem_cons_of_mem l hx))]
    cases hrow : parseRow? l <;> simp [List.filterMap_cons, hrow]

lemma foldl_rev_data (ds : List String) (A B : List (List String))
    (h : ∀ l ∈ ds, depMark l = false ∧ revMark l = false ∧ isHeaderL l = false) :
    ds.foldl stepLine ⟨some Side.rev, A, B⟩ = ⟨some Side.rev, A, B ++ ds.filterMap parseRow?⟩ := by
  induction ds generalizing B with
  | nil => simp
  | cons l t ih =>
    have hl := h l (List.mem_cons_self l t)
    rw [List.foldl_cons, stepLine_data_rev A B l hl.1 hl.2.1 hl.2.2,
      ih _ (fun x hx => h x (List.mem_cons_of_mem l hx))]
    cases hrow : parseRow? l <;> simp [List.filterMap_cons, hrow]

lemma filterMap_allSome_length {α β : Type} (f : α → Option β) :
    ∀ ds : List α, (∀ l ∈ ds, (f l).isSome = true) → (ds.filterMap f).length = ds.length := by
  intro ds h
  induction ds with
  | nil => rfl
  | cons l t ih =>
    have hl := h l (List.mem_cons_self l t)
    cases hrow : f l with
    | none => rw [hrow] at hl; simp at hl
    | some r =>
      rw [List.filterMap_cons, hrow]
      simp [ih (fun x hx => h x (List.mem_cons_of_mem l hx))]

/-! ## Claims C5, C10, C2 -/

/-- C5: rows appearing on lines before any section marker never appear in
either output of the response parser — a marker-free line block before the
rest of the input leaves the parse result exactly that of the rest. -/
theorem C5_section_isolation (pre rest : List String)
    (h : ∀ l ∈ pre, depMark l = false ∧ revMark l = false) :
    parseLines (pre ++ rest) = parseLines rest := by
  unfold parseLines
  rw [List.foldl_append, foldl_no_marker pre [] [] h]

theorem C5_section_isolation_witness :
    parseLines (["01/02/2026;12,50;Cafe;Restaurants"] ++
        ["--- REVENUS ---", "03/02/2026;1000,00;Salaire;Salaire"]) =
      parseLines ["--- REVENUS ---", "03/02/2026;1000,00;Salaire;Salaire"] :=
  C5_section_isolation _ _ (by decide)

/-- C10: section-marker detection takes precedence over data parsing — any
line whose stripped, uppercased text contains one of the section keywords
only switches the active section and contributes no row to either output,
whatever the scanner state. -/
theorem C10_marker_precedence (st : PSt) (l : String)
    (h : depMark l = true ∨ revMark l = true) :
    (stepLine st l).deps = st.deps ∧ (stepLine st l).revs = st.revs ∧
      ((stepLine st l).sec = some Side.dep ∨ (stepLine st l).sec = some Side.rev) := by
  cases hd : depMark l with
  | true => rw [stepLine_dep st l hd]; exact ⟨rfl, rfl, Or.inl rfl⟩
  | false =>
    have hr : revMark l = true := h.resolve_left (by simp [hd])
    rw [stepLine_rev st l hd hr]
    exact ⟨rfl, rfl, Or.inr rfl⟩

theorem C10_marker_precedence_witness :
    (stepLine ⟨some Side.dep, [], []⟩ "01/02/2026;12,50;remboursement REVENUS;Autre").deps = [] ∧
      (stepLine ⟨some Side.dep, [], []⟩ "01/02/2026;12,50;remboursement REVENUS;Autre").revs = [] :=
  ⟨(C10_marker_precedence _ _ (Or.inr (by decide))).1,
    (C10_marker_precedence _ _ (Or.inr (by decide))).2.1⟩

/-- C2: for input made of a section marker, a header line, and data lines,
the parser returns, in that section, exactly the rows of the data lines that
split (on `;` when present, else `,`) into at least four fields — trimmed, in
original order — and skips the others; when every data line is valid the row
count equals the line count. -/
theorem C2_parser_tolerance (mark hdr : String) (ds : List String)
    (hm : depMark mark = true ∨ revMark mark = true)
    (hh : depMark hdr = false ∧ revMark hdr = false ∧ isHeaderL hdr = true)
    (hds : ∀ l ∈ ds, depMark l = false ∧ revMark l = false ∧ isHeaderL l = false) :
    parseLines (mark :: hdr :: ds) =
        (if depMark mark = true then (ds.filterMap parseRow?, [])
          else ([], ds.filterMap parseRow?)) ∧
      ((∀ l ∈ ds, (parseRow? l).isSome = true) →
        (parseLines (mark :: hdr :: ds)).1.length + (parseLines (mark :: hdr :: ds)).2.length =
          ds.length) := by
  have hmain : parseLines (mark :: hdr :: ds) =
      (if depMark mark = true then (ds.filterMap parseRow?, [])
        else ([], ds.filterMap parseRow?)) := by
    unfold parseLines
    cases hd : depMark mark with
    | true =>
      rw [List.foldl_cons, stepLine_dep _ mark hd, List.foldl_cons,
        stepLine_hdr _ hdr hh.1 hh.2.1 hh.2.2, foldl_dep_data ds [] [] hds]
      simp
    | false =>
      have hr : revMark mark = true := hm.resolve_left (by simp [hd])
      rw [List.foldl_cons, stepLine_rev _ mark hd hr, List.foldl_cons,
        stepLine_hdr _ hdr hh.1 hh.2.1 hh.2.2, foldl_rev_data ds [] [] hds]
      simp
  refine ⟨hmain, fun hall => ?_⟩
  rw [hmain]
  cases depMark mark <;>
    simp [filterMap_allSome_length parseRow? ds hall]

theorem C2_parser_tolerance_witness :
    parseLines ["--- DÉPENSES ---", "Date;Montant;Description;Catégorie",
        "01/02/2026;12,50; Cafe ;Restaurants", "bad;line",
        "02/02/2026;8,00;Pain;Alimentation"] =
      ([["01/02/2026", "12,50", "Cafe", "Restaurants"],
        ["02/02/2026", "8,00", "Pain", "Alimentation"]], []) :=
  ((C2_parser_tolerance "--- DÉPENSES ---" "Date;Montant;Description;Catégorie"
      ["01/02/2026;12,50; Cafe ;Restaurants", "bad;line", "02/02/2026;8,00;Pain;Alimentation"]
      (Or.inl (by decide)) (by decide) (by decide)).1).trans (by decide)

/-! ## Claims C1, C4, C9 -/

lemma any_up_congr (pats : List String) (D : String) (h : ∀ p ∈ pats, pyUpper p = p) :
    pats.any (fun p => containsSub D p) = pats.any (fun p => containsSub D (pyUpper p)) := by
  induction pats with
  | nil => rfl
  | cons p t ih =>
    rw [List.any_cons, List.any_cons, h p (List.mem_cons_self p t),
      ih (fun x hx => h x (List.mem_cons_of_mem p hx))]

/-- C1 counterexample: with the configured pattern `casino`, the row whose
`Detail` is `Casino Paris` case-insensitively contains the pattern, yet
`load_releve` retains it — matching is not case-insensitive, because the code
uppercases the detail but not the pattern. -/
theorem C1_counterexample :
    load_releve ["casino"]
        ["meta", "meta2", "Date;Libelle;Detail;Montant;Devise",
          "01/01/2026;VIR;Casino Paris;12,34;EUR"] =
      .ok [⟨"01/01/2026", "VIR", "Casino Paris", "12,34", "EUR"⟩] ∧
      ciContains "Casino Paris" "casino" = true :=
  ⟨rfl, by decide⟩

/-- C1 amended: `load_releve` drops exactly the rows whose uppercased `Detail`
contains a configured pattern verbatim, retaining the others unchanged and in
order; this coincides with case-insensitive matching exactly when every
configured pattern is invariant under uppercasing. -/
theorem C1_exclusion_amended (pats : List String) (rows : List StatementRow)
    (h : ∀ p ∈ pats, pyUpper p = p) :
    excludeFilter pats rows =
        rows.filter (fun r => ! pats.any (fun p => ciContains r.detail p)) ∧
      (excludeFilter pats rows).Sublist rows := by
  constructor
  · unfold excludeFilter ciContains
    exact List.filter_congr (fun r _ => by rw [any_up_congr pats (pyUpper r.detail) h])
  · exact List.filter_sublist rows

theorem C1_exclusion_amended_witness :
    excludeFilter ["CASINO"]
        [⟨"01/01/2026", "VIR", "Casino Paris", "12,34", "EUR"⟩,
          ⟨"02/01/2026", "CB", "Boulangerie", "3,40", "EUR"⟩] =
        [⟨"01/01/2026", "VIR", "Casino Paris", "12,34", "EUR"⟩,
          ⟨"02/01/2026", "CB", "Boulangerie", "3,40", "EUR"⟩].filter
          (fun r => ! ["CASINO"].any (fun p => ciContains r.detail p)) ∧
      (excludeFilter ["CASINO"]
          [⟨"01/01/2026", "VIR", "Casino Paris", "12,34", "EUR"⟩,
            ⟨"02/01/2026", "CB", "Boulangerie", "3,40", "EUR"⟩]).Sublist
        [⟨"01/01/2026", "VIR", "Casino Paris", "12,34", "EUR"⟩,
          ⟨"02/01/2026", "CB", "Boulangerie", "3,40", "EUR"⟩] :=
  C1_exclusion_amended _ _ (by decide)

/-- C4 counterexample: a statement file whose header row is `A;B;C;D;E` — the
wrong header names for the expected schema — loads successfully; no error of
any kind is raised (and no `MalformedInputError` exists in the program). -/
theorem C4_counterexample :
    load_releve [] ["meta", "meta2", "A;B;C;D;E", "a;b;c;d;e"] =
      .ok [⟨"a", "b", "c", "d", "e"⟩] := rfl

/-- C4 amended: `load_releve` fails — with a pandas `ValueError` from the
column renaming, not a `MalformedInputError` — when the parsed column count
differs from five (given pandas' own read succeeds, i.e. no data row is wider
than the header); the header's content is never validated: any two five-field
header rows give identical results. -/
theorem C4_schema_amended (pats : List String) (l1 l2 hdr : String) (rest : List String) :
    ((∀ l ∈ rest, (splitS ';' l).length ≤ (splitS ';' hdr).length) →
        (splitS ';' hdr).length ≠ 5 →
        load_releve pats (l1 :: l2 :: hdr :: rest) = .error "ValueError") ∧
      (∀ hdr2, (splitS ';' hdr).length = 5 → (splitS ';' hdr2).length = 5 →
        load_releve pats (l1 :: l2 :: hdr :: rest) =
          load_releve pats (l1 :: l2 :: hdr2 :: rest)) := by
  constructor
  · intro hb h5
    have hany : rest.any (fun l => (splitS ';' hdr).length < (splitS ';' l).length) = false := by
      rw [List.any_eq_false]
      intro l hl
      simpa using hb l hl
    simp [load_releve, readRows, hany, h5, Except.map]
  · intro hdr2 h5 h5'
    simp [load_releve, readRows, h5, h5']

theorem C4_schema_amended_witness :
    load_releve [] ["meta", "meta2", "A;B;C;D", "a;b;c"] = .error "ValueError" :=
  (C4_schema_amended [] "meta" "meta2" "A;B;C;D" ["a;b;c"]).1 (by decide) (by decide)

/-- C9: when no statement argument is given and the input directory holds no
`.csv` entry, `main` returns early (`.ok false`, after a printed diagnostic)
without raising; otherwise the pipeline runs and its failure — there is no
surrounding handler — propagates unchanged. -/
theorem C9_main_exit {ε : Type} (listing : List String) (pipeline : String → Except ε Unit) :
    ((∀ f ∈ listing, endsCsv f = false) → mainRun none listing pipeline = .ok false) ∧
      (∀ arg p e, selectReleve arg listing = some p → pipeline p = .error e →
        mainRun arg listing pipeline = .error e) ∧
      (∀ arg p, selectReleve arg listing = some p → pipeline p = .ok () →
        mainRun arg listing pipeline = .ok true) := by
  refine ⟨fun h => ?_, fun arg p e hsel hpipe => ?_, fun arg p hsel hpipe => ?_⟩
  · have hfil : listing.filter endsCsv = [] := by
      rw [List.filter_eq_nil_iff]
      intro f hf
      simp [h f hf]
    simp [mainRun, selectReleve, hfil, sortedStr]
  · simp [mainRun, hsel, hpipe, Except.map]
  · simp [mainRun, hsel, hpipe, Except.map]

theorem C9_main_exit_witness :
    mainRun none ["readme.txt", "notes.md"] (fun _ => (Except.ok () : Except Unit Unit)) =
      .ok false :=
  (C9_main_exit _ _).1 (by decide)

/-! ## Claims C6, C7, C8 -/

lemma data_append (s t : String) : (s ++ t).data = s.data ++ t.data := by
  cases s
  cases t
  rfl

lemma mk_data (s : String) : String.mk s.data = s := by
  cases s
  rfl

lemma ofNat_digit (m : Nat) (h : m < 10) : (Char.ofNat (48 + m)).isDigit = true := by
  interval_cases m <;> decide

lemma natDigitsAux_digits : ∀ fuel n, ∀ c ∈ natDigitsAux fuel n, c.isDigit = true := by
  intro fuel
  induction fuel with
  | zero => intro n c hc; simp [natDigitsAux] at hc
  | succ f ih =>
    intro n c hc
    by_cases hn : n < 10
    · simp only [natDigitsAux, if_pos hn, List.mem_singleton] at hc
      subst hc
      exact ofNat_digit n hn
    · simp only [natDigitsAux, if_neg hn, List.mem_append, List.mem_singleton] at hc
      rcases hc with hc | hc
      · exact ih (n / 10) c hc
      · subst hc
        exact ofNat_digit (n % 10) (Nat.mod_lt n (by omega))

lemma natDigits_digits (n : Nat) : ∀ c ∈ natDigits n, c.isDigit = true :=
  natDigitsAux_digits (n + 1) n

lemma digit_ne_quote (c : Char) (h : c.isDigit = true) : c ≠ '"' := by
  intro heq
  subst heq
  simp at h

lemma pad2_digits (n : Nat) : ∀ c ∈ (pad2 n).data, c.isDigit = true := by
  intro c hc
  unfold pad2 at hc
  by_cases hn : n < 10
  · rw [if_pos hn, data_append] at hc
    rcases List.mem_append.mp hc with hc | hc
    · have : c = '0' := by simpa using hc
      subst this; decide
    · exact natDigits_digits n c hc
  · rw [if_neg hn] at hc
    exact natDigits_digits n c hc

lemma decFmt2_euro_data (d : Dec) :
    (decFmt2 d ++ " €").data =
      natDigits (decCents d / 100) ++ [','] ++ (pad2 (decCents d % 100)).data ++ [' ', '€'] := by
  unfold decFmt2
  rw [data_append, data_append, data_append]

lemma decFmt2_euro_no_quote (d : Dec) : ∀ c ∈ (decFmt2 d ++ " €").data, c ≠ '"' := by
  intro c hc
  rw [decFmt2_euro_data] at hc
  rcases List.mem_append.mp hc with h1 | h1
  · rcases List.mem_append.mp h1 with h2 | h2
    · rcases List.mem_append.mp h2 with h3 | h3
      · exact digit_ne_quote c (natDigits_digits _ c h3)
      · have : c = ',' := by simpa using h3
        subst this; decide
    · exact digit_ne_quote c (pad2_digits _ c h2)
  · have : c = ' ' ∨ c = '€' := by simpa using h1
    rcases this with h | h <;> (subst h; decide)

lemma decFmt2_euro_ne_empty (d : Dec) : decFmt2 d ++ " €" ≠ "" := by
  intro h
  have hd : (decFmt2 d ++ " €").data = [] := by rw [h]
  rw [decFmt2_euro_data] at hd
  simp at hd

/-- C6: `format_montant` renders numeric input as the absolute value with two
decimals, comma separator and euro sign (`-42.5` to `42,50 €`, `1234,00` to
`1234,00 €`, and in general via `decFmt2`); non-numeric input is returned
unchanged; and in the flat CSV every non-empty formatted amount token is
wrapped in double quotes. -/
theorem C6_amount_formatting :
    format_montant "-42.5" = "42,50 €" ∧
      format_montant "1234,00" = "1234,00 €" ∧
      (∀ s, pyFloat? (replaceCommaDot s) = none → format_montant s = s) ∧
      (∀ s d, pyFloat? (replaceCommaDot s) = some d →
        format_montant s = decFmt2 d ++ " €") ∧
      (∀ rows i r, rows.get? i = some r → format_montant (r.getD 1 "") ≠ "" →
        (sideTokens rows i).get? 1 =
          some ("\"" ++ format_montant (r.getD 1 "") ++ "\"")) := by
  refine ⟨by decide, by decide, fun s h => ?_, fun s d h => ?_, fun rows i r hget hne => ?_⟩
  · unfold format_montant
    rw [h]
  · unfold format_montant
    rw [h]
  · simp only [sideTokens, hget]
    rw [if_neg hne]
    rfl

theorem C6_amount_formatting_witness :
    format_montant "pending" = "pending" ∧
      (sideTokens [["01/02/2026", "-42.5", "Cafe", "Restaurants"]] 0).get? 1 =
        some ("\"" ++ format_montant "-42.5" ++ "\"") :=
  ⟨C6_amount_formatting.2.2.1 "pending" (by decide),
    C6_amount_formatting.2.2.2.2 [["01/02/2026", "-42.5", "Cafe", "Restaurants"]] 0
      ["01/02/2026", "-42.5", "Cafe", "Restaurants"] (by decide) (by decide)⟩

lemma writeRowsFrom_length (rows : List (List String)) :
    ∀ k, (writeRowsFrom k rows).length = rows.length := by
  induction rows with
  | nil => intro k; rfl
  | cons r t ih => intro k; simp [writeRowsFrom, ih]

lemma writeRowsFrom_get? (rows : List (List String)) :
    ∀ k i r, rows.get? i = some r →
      (writeRowsFrom k rows).get? i =
        some (k + i, dateCell (r.getD 0 ""), CellV.numV (parse_montant (r.getD 1 "")),
          CellV.textV (r.getD 2 ""), CellV.textV (r.getD 3 "")) := by
  induction rows with
  | nil => intro k i r h; simp at h
  | cons hd t ih =>
    intro k i r h
    cases i with
    | zero =>
      have : hd = r := by simpa using h
      subst this
      rfl
    | succ i =>
      have hk : k + (i + 1) = k + 1 + i := by omega
      rw [hk]
      exact ih (k + 1) i r (by simpa using h)

/-- C7: spreadsheet value coercion is per-field and drops no row —
`"05/03/2026"` parses to March 5 2026 while `"not-a-date"` is written as the
literal text; unparsable amounts become zero and parsable ones their absolute
value; and every input row `i` is written, at sheet row `5 + i`, with exactly
these coerced cells. -/
theorem C7_value_coercion :
    parse_date "05/03/2026" = DateOrText.date 2026 3 5 ∧
      parse_date "not-a-date" = DateOrText.raw "not-a-date" ∧
      (∀ s, pyFloat? (replaceCommaDot s) = none → parse_montant s = 0) ∧
      (∀ s d, pyFloat? (replaceCommaDot s) = some d → parse_montant s = |d.toRat|) ∧
      (∀ rows, (writeSection rows).length = rows.length) ∧
      (∀ rows i r, rows.get? i = some r →
        (writeSection rows).get? i =
          some (5 + i, dateCell (r.getD 0 ""), CellV.numV (parse_montant (r.getD 1 "")),
            CellV.textV (r.getD 2 ""), CellV.textV (r.getD 3 ""))) := by
  refine ⟨by decide, by decide, fun s h => ?_, fun s d h => ?_,
    fun rows => writeRowsFrom_length rows 5, fun rows i r h => writeRowsFrom_get? rows 5 i r h⟩
  · unfold parse_montant
    rw [h]
  · unfold parse_montant
    rw [h]

theorem C7_value_coercion_witness :
    parse_montant "abc" = 0 ∧
      (writeSection [["05/03/2026", "abc", "Loyer", "Logement"]]).length = 1 ∧
      (writeSection [["05/03/2026", "abc", "Loyer", "Logement"]]).get? 0 =
        some (5 + 0, dateCell "05/03/2026", CellV.numV (parse_montant "abc"),
          CellV.textV "Loyer", CellV.textV "Logement") :=
  ⟨C7_value_coercion.2.2.1 "abc" (by decide),
    C7_value_coercion.2.2.2.2.1 [["05/03/2026", "abc", "Loyer", "Logement"]],
    C7_value_coercion.2.2.2.2.2 [["05/03/2026", "abc", "Loyer", "Logement"]] 0
      ["05/03/2026", "abc", "Loyer", "Logement"] (by decide)⟩

/-- C8: the flat CSV written by `save_result` is exactly the four fixed
header/label rows followed by exactly `max(len(expenses), len(income))` data
rows, and past the end of the shorter sequence that side's four fields are
all empty. -/
theorem C8_flat_csv_shape (deps revs : List (List String)) :
    (save_result_lines deps revs).length = 4 + max deps.length revs.length ∧
      (save_result_lines deps revs).take 4 = headerLines ∧
      (∀ i, i < max deps.length revs.length →
        (save_result_lines deps revs).get? (4 + i) = some (dataLine deps revs i)) ∧
      (∀ i, deps.length ≤ i → sideTokens deps i = ["", "", "", ""]) ∧
      (∀ i, revs.length ≤ i → sideTokens revs i = ["", "", "", ""]) := by
  refine ⟨?_, ?_, fun i hi => ?_, fun i hi => ?_, fun i hi => ?_⟩
  · simp [save_result_lines, headerLines]
    omega
  · exact List.take_left headerLines _
  · have h4 : headerLines.length ≤ 4 + i := by simp [headerLines]
    rw [save_result_lines, List.get?_append_right h4]
    have : 4 + i - headerLines.length = i := by simp [headerLines]
    rw [this, List.get?_map, List.get?_range hi]
    rfl
  · unfold sideTokens
    rw [List.get?_eq_none.mpr hi]
  · unfold sideTokens
    rw [List.get?_eq_none.mpr hi]

theorem C8_flat_csv_shape_witness :
    (save_result_lines [["01/02/2026", "12,50", "Cafe", "Restaurants"]] []).length =
        4 + max 1 0 ∧
      sideTokens ([] : List (List String)) 0 = ["", "", "", ""] :=
  ⟨(C8_flat_csv_shape [["01/02/2026", "12,50", "Cafe", "Restaurants"]] []).1,
    (C8_flat_csv_shape [["01/02/2026", "12,50", "Cafe", "Restaurants"]] []).2.2.2.2 0
      (by decide)⟩

/-! ## Claim C3: flat-CSV round-trip -/

lemma csvAux_norm_comma (rest : List Char) (acc : List Char) :
    csvAux (',' :: rest) CsvMode.norm acc =
      String.mk acc.reverse :: csvAux rest CsvMode.norm [] := by
  simp [csvAux]

lemma csvAux_norm_quote (rest : List Char) (acc : List Char) :
    csvAux ('"' :: rest) CsvMode.norm acc = csvAux rest CsvMode.quot acc := by
  simp [csvAux]

lemma csvAux_closed_comma (rest : List Char) (acc : List Char) :
    csvAux (',' :: rest) CsvMode.closed acc =
      String.mk acc.reverse :: csvAux rest CsvMode.norm [] := by
  simp [csvAux]

lemma csvAux_plain (cs : List Char) (rest : List Char) (acc : List Char)
    (h : ∀ c ∈ cs, ¬(c = ',' ∨ c = '"')) :
    csvAux (cs ++ rest) CsvMode.norm acc = csvAux rest CsvMode.norm (cs.reverse ++ acc) := by
  induction cs generalizing acc with
  | nil => simp
  | cons c t ih =>
    have hc := h c (List.mem_cons_self c t)
    push_neg at hc
    rw [List.cons_append]
    simp only [csvAux]
    rw [if_neg hc.1, if_neg hc.2, ih _ (fun x hx => h x (List.mem_cons_of_mem c hx)),
      List.reverse_cons, List.append_assoc]
    rfl

lemma csvAux_quoted (cs : List Char) (rest : List Char) (acc : List Char)
    (h : ∀ c ∈ cs, c ≠ '"') :
    csvAux (cs ++ '"' :: rest) CsvMode.quot acc =
      csvAux rest CsvMode.closed (cs.reverse ++ acc) := by
  induction cs generalizing acc with
  | nil => simp [csvAux]
  | cons c t ih =>
    have hc := h c (List.mem_cons_self c t)
    rw [List.cons_append]
    simp only [csvAux]
    rw [if_neg hc, ih _ (fun x hx => h x (List.mem_cons_of_mem c hx)),
      List.reverse_cons, List.append_assoc]
    rfl

lemma csv_join (fs ts : List String) (h : List.Forall₂ Renders fs ts) (hne : fs ≠ []) :
    csvSplit (joinC ts) = fs := by
  induction h with
  | nil => exact absurd rfl hne
  | @cons f t fs' ts' h₁ hRest ih =>
    cases hRest with
    | nil =>
      unfold csvSplit
      rcases h₁ with ⟨heq, hsafe⟩ | ⟨hdata, hq⟩
      · subst heq
        show csvAux t.data CsvMode.norm [] = [t]
        rw [← List.append_nil t.data, csvAux_plain t.data [] [] hsafe]
        simp [csvAux, mk_data]
      · show csvAux t.data CsvMode.norm [] = [f]
        rw [hdata, List.cons_append, csvAux_norm_quote, csvAux_quoted f.data [] [] hq]
        simp [csvAux, mk_data]
    | @cons f2 t2 fs2 ts2 h₂ hRest2 =>
      have hjoin : joinC (t :: t2 :: ts2) = t ++ "," ++ joinC (t2 :: ts2) := rfl
      have hdata2 : (t ++ "," ++ joinC (t2 :: ts2)).data =
          t.data ++ ',' :: (joinC (t2 :: ts2)).data := by
        rw [data_append, data_append]
        simp
      have ihne : csvSplit (joinC (t2 :: ts2)) = f2 :: fs2 := ih (by simp)
      unfold csvSplit
      rcases h₁ with ⟨heq, hsafe⟩ | ⟨hdata, hq⟩
      · subst heq
        rw [hjoin, hdata2, csvAux_plain t.data _ [] hsafe, csvAux_norm_comma]
        rw [List.append_nil, List.reverse_reverse, mk_data]
        exact congrArg _ ihne
      · rw [hjoin, hdata2, hdata, List.append_assoc, List.cons_append,
          List.singleton_append, csvAux_norm_quote, csvAux_quoted f.data _ [] hq]
        rw [csvAux_closed_comma, List.append_nil, List.reverse_reverse, mk_data]
        exact congrArg _ ihne

lemma forall2_append {R : String → String → Prop} {a b c d : List String}
    (h₁ : List.Forall₂ R a b) (h₂ : List.Forall₂ R c d) :
    List.Forall₂ R (a ++ c) (b ++ d) := by
  induction h₁ with
  | nil => exact h₂
  | cons hx hr ih => exact .cons hx ih

lemma renders_plain (s : String) (h : safeF s = true) : Renders s s := by
  left
  refine ⟨rfl, fun c hc hbad => ?_⟩
  simp only [safeF, Bool.not_eq_true', List.any_eq_false] at h
  have hc' := h c hc
  rcases hbad with rfl | rfl <;> simp at hc'

lemma renders_empty : Renders "" "" := renders_plain "" (by decide)

lemma format_montant_eq (m : String) (d : Dec) (h : pyFloat? (replaceCommaDot m) = some d) :
    format_montant m = decFmt2 d ++ " €" := by
  unfold format_montant
  rw [h]

lemma format_montant_ne_empty (m : String) (d : Dec)
    (h : pyFloat? (replaceCommaDot m) = some d) : format_montant m ≠ "" := by
  rw [format_montant_eq m d h]
  exact decFmt2_euro_ne_empty d

lemma renders_montant (m : String) (d : Dec) (h : pyFloat? (replaceCommaDot m) = some d) :
    Renders (format_montant m) ("\"" ++ format_montant m ++ "\"") := by
  right
  constructor
  · rw [data_append, data_append]
    simp
  · rw [format_montant_eq m d h]
    exact decFmt2_euro_no_quote d

lemma side_renders (rows : List (List String)) (i : Nat) (h : ∀ r ∈ rows, goodRow r) :
    List.Forall₂ Renders (sideFields rows i) (sideTokens rows i) := by
  cases hget : rows.get? i with
  | none =>
    unfold sideFields sideTokens
    rw [hget]
    exact .cons renders_empty (.cons renders_empty
      (.cons renders_empty (.cons renders_empty .nil)))
  | some r =>
    obtain ⟨⟨h0, hn0⟩, ⟨h2, hn2⟩, ⟨h3, hn3⟩, h1⟩ := h r (List.get?_mem hget)
    obtain ⟨d, hd⟩ := Option.isSome_iff_exists.mp h1
    unfold sideFields sideTokens outRow
    rw [hget]
    simp only
    rw [if_neg (format_montant_ne_empty _ d hd)]
    exact .cons (renders_plain _ h0) (.cons (renders_montant _ d hd)
      (.cons (renders_plain _ h2) (.cons (renders_plain _ h3) .nil)))

lemma line_fields_split (deps revs : List (List String)) (i : Nat)
    (hd : ∀ r ∈ deps, goodRow r) (hr : ∀ r ∈ revs, goodRow r) :
    csvSplit (dataLine deps revs i) = lineFields deps revs i := by
  have hf : List.Forall₂ Renders (lineFields deps revs i) (lineTokens deps revs i) :=
    forall2_append (forall2_append (forall2_append
        (List.Forall₂.cons renders_empty List.Forall₂.nil) (side_renders deps i hd))
      (List.Forall₂.cons renders_empty List.Forall₂.nil)) (side_renders revs i hr)
  have hne : lineFields deps revs i ≠ [] := by simp [lineFields]
  exact csv_join _ _ hf hne

lemma row4_lineFields_dep (deps revs : List (List String)) (i : Nat) :
    row4 (lineFields deps revs i) 1 = sideFields deps i := by
  unfold row4 lineFields sideFields outRow
  cases deps.get? i <;> cases revs.get? i <;> rfl

lemma row4_lineFields_rev (deps revs : List (List String)) (i : Nat) :
    row4 (lineFields deps revs i) 6 = sideFields revs i := by
  unfold row4 lineFields sideFields outRow
  cases deps.get? i <;> cases revs.get? i <;> rfl

lemma naCell_id (s : String) (h : notNA s = true) : naCell s = s := by
  have hc : naList.contains s = false := by simpa [notNA] using h
  unfold naCell
  rw [hc]
  simp

lemma naCell_fmt (m : String) (d : Dec) (h : pyFloat? (replaceCommaDot m) = some d) :
    naCell (format_montant m) = format_montant m := by
  have hmem : '€' ∈ (format_montant m).data := by
    rw [format_montant_eq m d h, decFmt2_euro_data]
    simp
  unfold naCell
  rw [if_neg]
  intro hc
  have hsmem : format_montant m ∈ naList := by simpa using hc
  have hno : ∀ t ∈ naList, ¬ '€' ∈ t.data := by decide
  exact hno _ hsmem hmem

lemma naCell_sideFields (rows : List (List String)) (i : Nat)
    (h : ∀ r ∈ rows, goodRow r) :
    (sideFields rows i).map naCell = sideFields rows i := by
  cases hget : rows.get? i with
  | none =>
    unfold sideFields
    rw [hget]
    decide
  | some r =>
    obtain ⟨⟨h0, hn0⟩, ⟨h2, hn2⟩, ⟨h3, hn3⟩, h1⟩ := h r (List.get?_mem hget)
    obtain ⟨d, hd⟩ := Option.isSome_iff_exists.mp h1
    unfold sideFields outRow
    rw [hget]
    simp only [List.map_cons, List.map_nil]
    rw [naCell_id _ hn0, naCell_id _ hn2, naCell_id _ hn3, naCell_fmt _ d hd]

lemma naCell_lineFields (deps revs : List (List String)) (i : Nat)
    (hd : ∀ r ∈ deps, goodRow r) (hr : ∀ r ∈ revs, goodRow r) :
    (lineFields deps revs i).map naCell = lineFields deps revs i := by
  have he : ([""] : List String).map naCell = [""] := by decide
  unfold lineFields
  rw [List.map_append, List.map_append, List.map_append, he,
    naCell_sideFields deps i hd, naCell_sideFields revs i hr]

lemma sideFields_nonEmpty (rows : List (List String)) (i : Nat) (r : List String)
    (hget : rows.get? i = some r) (hg : goodRow r) :
    nonEmptyRow (sideFields rows i) = true := by
  obtain ⟨d, hd⟩ := Option.isSome_iff_exists.mp hg.2.2.2
  unfold sideFields outRow
  rw [hget]
  apply List.any_eq_true.mpr
  refine ⟨format_montant (r.getD 1 ""), by simp, ?_⟩
  simpa using format_montant_ne_empty _ d hd

lemma sideFields_pad (rows : List (List String)) (i : Nat) (h : rows.length ≤ i) :
    sideFields rows i = ["", "", "", ""] := by
  unfold sideFields
  rw [List.get?_eq_none.mpr h]

lemma sideFields_cons_succ (x : List String) (t : List (List String)) (i : Nat) :
    sideFields (x :: t) (i + 1) = sideFields t i := rfl

lemma map_range_side (rows : List (List String)) :
    (List.range rows.length).map (fun i => sideFields rows i) = rows.map outRow := by
  induction rows with
  | nil => rfl
  | cons x t ih =>
    rw [List.length_cons, List.range_succ_eq_map, List.map_cons, List.map_map, List.map_cons]
    refine congrArg₂ _ rfl ?_
    rw [← ih]
    exact List.map_congr_left (fun i _ => sideFields_cons_succ x t i)

lemma filter_side (rows : List (List String)) (L : Nat) (hL : rows.length ≤ L)
    (hg : ∀ r ∈ rows, goodRow r) :
    ((List.range L).map (fun i => sideFields rows i)).filter nonEmptyRow =
      rows.map outRow := by
  obtain ⟨k, rfl⟩ : ∃ k, L = rows.length + k := ⟨L - rows.length, by omega⟩
  rw [List.range_add, List.map_append, List.filter_append]
  have h1 : ((List.range rows.length).map (fun i => sideFields rows i)).filter nonEmptyRow =
      (List.range rows.length).map (fun i => sideFields rows i) := by
    rw [List.filter_eq_self]
    intro x hx
    obtain ⟨i, hi, rfl⟩ := List.mem_map.mp hx
    have hi' : i < rows.length := List.mem_range.mp hi
    obtain ⟨r, hr⟩ : ∃ r, rows.get? i = some r := by
      rw [List.get?_eq_get hi']
      exact ⟨_, rfl⟩
    exact sideFields_nonEmpty rows i r hr (hg r (List.get?_mem hr))
  have h2 : (((List.range k).map (fun x => rows.length + x)).map
      (fun i => sideFields rows i)).filter nonEmptyRow = [] := by
    rw [List.filter_eq_nil_iff]
    intro x hx
    obtain ⟨j, hj, rfl⟩ := List.mem_map.mp (by
      rw [List.map_map] at hx
      exact hx)
    rw [Function.comp, sideFields_pad rows _ (by omega)]
    decide
  rw [h1, h2, List.append_nil]
  exact map_range_side rows

end S2B
